import Mathlib

/-!
# goldap `message/translate.go`: filter-to-query translation

A shallow embedding of `src/message/translate.go` and theorems about it.

Conventions of the embedding:

* a Go `string` is a Lean `String`, a sequence of Unicode code points; the filter
  compiler only concatenates strings and substitutes them into format strings, and
  the JSON decoder trims and lower-cases code point by code point;
* a Go `error` is an `Option String` carrying the message, `none` being `nil`;
* a Go multiple return `(ret string, err error)` is a pair `String × Option String`;
* a Go `map[string]TranslatorElem` is an association list read with `List.lookup`
  (the first binding of a key is the map's binding);
* a `*TranslatorElem` that may be `nil` is an `Option TranslatorElem`.
-/

namespace message

/-! ## `fmt.Sprintf` restricted to string operands -/

/-- Rendering of the operands left over once the format string is exhausted:
Go writes each one as its type name, `=`, and its value, separated by `, `.
Every operand in this program is a `string`. -/
def extraArgs : List String → List Char
  | [] => []
  | [a] => "string=".data ++ a.data
  | a :: as => "string=".data ++ a.data ++ ", ".data ++ extraArgs as

/-- The formatting loop of Go's `fmt` package for string operands: `%s` consumes
the next operand and copies it unchanged, `%s` without an operand prints
`%!s(MISSING)`, every other character of the format is copied, and operands that
no verb consumed are reported as `%!(EXTRA string=...)` at the end.  The format
strings of `translate.go` contain no directive other than `%s`. -/
def doPrintf : List Char → List String → List Char
  | [], [] => []
  | [], a :: as => "%!(EXTRA ".data ++ extraArgs (a :: as) ++ [')']
  | '%' :: 's' :: rest, a :: as => a.data ++ doPrintf rest as
  | '%' :: 's' :: rest, [] => "%!s(MISSING)".data ++ doPrintf rest []
  | c :: rest, as => c :: doPrintf rest as

/-- Go's `fmt.Sprintf(format, a...)` with string operands. -/
def Sprintf (format : String) (a : List String) : String :=
  String.mk (doPrintf format.data a)

/-! ## Translation table (lines 10-43) -/

/-- Go: `type TransValType int`. -/
abbrev TransValType := Int

/-- Go: `TransVTInt TransValType = 1`. -/
def TransVTInt : TransValType := 1

/-- Go: `TransVTString TransValType = 2`. -/
def TransVTString : TransValType := 2

/-- Go: `TransVTFloat TransValType = 3`. -/
def TransVTFloat : TransValType := 3

/-- Go: `type TranslatorElem struct { Name string; Type TransValType; IsArray bool }`.
The field `Type` is spelled `Type_` because `Type` is reserved in Lean. -/
structure TranslatorElem where
  Name : String
  Type_ : TransValType
  IsArray : Bool
deriving DecidableEq, Repr

/-- Go: `type TranslatorMap map[string]TranslatorElem`. -/
abbrev TranslatorMap := List (String × TranslatorElem)

/-- Go: `type Translator struct { Table TranslatorMap }`. -/
structure Translator where
  Table : TranslatorMap
deriving DecidableEq, Repr

/-- Go: `func (t *Translator) Replace(key string) (string, *TranslatorElem)`. -/
def Translator.Replace (t : Translator) (key : String) : String × Option TranslatorElem :=
  match t.Table.lookup key with
  | some xlat => ("\"" ++ xlat.Name ++ "\"", some xlat)
  | none => ("\"" ++ key ++ "\"", none)

/-! ## Filter tree -/

/-- Modelled from the spec: the parts of a substring filter (`SubstringInitial`,
`SubstringAny`, `SubstringFinal`), whose Go declarations are outside
`translate.go`; each carries its text. -/
inductive Substring where
  | SubstringInitial (fsv : String)
  | SubstringAny (fsv : String)
  | SubstringFinal (fsv : String)
deriving DecidableEq, Repr

/-- Modelled from the spec: the filter node type `Filter`, whose Go declaration is
outside `translate.go`.  The nine variants are those of the spec's data model, with
the accessors the code uses (`AttributeDesc`, `AssertionValue`, `Type_`,
`Substrings`, the embedded `Filter` of a `FilterNot`) as constructor arguments.
`other` stands for every value of the interface that is none of the nine (the nil
interface value, an extensible-match node): the type switch has no case for it. -/
inductive Filter where
  | FilterAnd (f : List Filter)
  | FilterOr (f : List Filter)
  | FilterNot (inner : Filter)
  | FilterSubstrings (type_ : String) (substrings : List Substring)
  | FilterEqualityMatch (attributeDesc assertionValue : String)
  | FilterGreaterOrEqual (attributeDesc assertionValue : String)
  | FilterLessOrEqual (attributeDesc assertionValue : String)
  | FilterPresent (f : String)
  | FilterApproxMatch (attributeDesc assertionValue : String)
  | other

/-- Modelled from the spec: the search request, of which `translate.go` only reads
the filter through `s.Filter()`. -/
structure SearchRequest where
  filter : Filter

/-- Go: `s.Filter()`, the request's filter. -/
def SearchRequest.Filter (s : SearchRequest) : message.Filter := s.filter

/-! ## The filter compiler (lines 69-194) -/

/-- The inner type switch of the `FilterSubstrings` case (lines 136-143): the text
one part appends to `ret`. -/
def substringText : Substring → String
  | .SubstringInitial fsv => Sprintf "\"/^%s/\"" [fsv ++ "*"]
  | .SubstringAny fsv => Sprintf "\"/%s/\"" ["*" ++ fsv ++ "*"]
  | .SubstringFinal fsv => Sprintf "\"/$s/\"" ["*" ++ fsv]

/-- The value object of the `FilterEqualityMatch` case (lines 149-166), appended
after the rendered name and the colon.  A record whose type is none of the three
constants matches no case of the switch and appends nothing. -/
def equalityValue (xl : Option TranslatorElem) (assertionValue : String) : String :=
  match xl with
  | some xl =>
    if xl.Type_ = TransVTInt ∨ xl.Type_ = TransVTFloat then
      if xl.IsArray then
        Sprintf "\x7b\"$in\": [%s]\x7d" [assertionValue]
      else
        Sprintf "\x7b\"$eq\": %s\x7d\"" [assertionValue]
    else if xl.Type_ = TransVTString then
      if xl.IsArray then
        Sprintf "\x7b\"$in\": [\"%s\"]\x7d" [assertionValue]
      else
        Sprintf "\x7b\"$eq\": \"%s\"\x7d" [assertionValue]
    else
      ""
  | none => Sprintf "\x7b\"$eq\": \"%s\"\x7d" [assertionValue]

mutual
/-- Go: `func (s *SearchRequest) decompileFilterMap(packet Filter, lookup Translator)
(ret string, err error)`.  `ret` starts empty and `err` nil; a naked `return` after
a failed recursive call hands back the text accumulated so far together with that
error; the final `return ret, nil` hands back `none`.  No statement of the body can
panic, so the deferred `recover` never replaces the error.  This is the function on a
stack deep enough for the tree; `decompileFilterMapStack` below bounds the stack. -/
def SearchRequest.decompileFilterMap (s : SearchRequest) (packet : message.Filter)
    (lookup : Translator) : String × Option String :=
  match packet with
  | .FilterAnd f => SearchRequest.decompileAnd s f lookup "" false
  | .FilterOr f =>
    match SearchRequest.decompileOr s f lookup "\"$or\": [" false with
    | (ret, some err) => (ret, some err)
    | (ret, none) => (ret ++ "]", none)
  | .FilterNot inner =>
    match SearchRequest.decompileFilterMap s inner lookup with
    | (_, some err) => ("", some err)
    | (childStr, none) => ("\x7b \"$not:\" " ++ childStr ++ "\x7d", none)
  | .FilterSubstrings type_ substrings =>
    (substrings.foldl (fun ret fs => ret ++ substringText fs) ("\"" ++ type_ ++ "\"" ++ ":"), none)
  | .FilterEqualityMatch attributeDesc assertionValue =>
    let (new, xl) := lookup.Replace attributeDesc
    (new ++ ":" ++ equalityValue xl assertionValue, none)
  | .FilterGreaterOrEqual attributeDesc assertionValue =>
    let (new, _) := lookup.Replace attributeDesc
    (new ++ ":" ++ Sprintf "\x7b\"$gte\": %s\x7d" [assertionValue], none)
  | .FilterLessOrEqual attributeDesc assertionValue =>
    let (new, _) := lookup.Replace attributeDesc
    (new ++ ":" ++ Sprintf "\x7b\"$lte\": %s\x7d" [assertionValue], none)
  | .FilterPresent f => ("\"" ++ f ++ "\"" ++ ":" ++ "\x7b\"$exists\": true\x7d", none)
  | .FilterApproxMatch attributeDesc assertionValue =>
    let (new, _) := lookup.Replace attributeDesc
    (new ++ ":" ++ Sprintf "\"/%s/\"" [assertionValue], none)
  | .other => ("", none)
/-- The `for _, child := range f` loop of the `FilterAnd` case (lines 92-104) over
the remaining children, with the current `ret` and `notFirst`. -/
def SearchRequest.decompileAnd (s : SearchRequest) (f : List message.Filter)
    (lookup : Translator) (ret : String) (notFirst : Bool) : String × Option String :=
  match f with
  | [] => (ret, none)
  | child :: rest =>
    let ret1 := if notFirst then ret ++ ", " else ret
    match SearchRequest.decompileFilterMap s child lookup with
    | (_, some err) => (ret1, some err)
    | (childStr, none) => SearchRequest.decompileAnd s rest lookup (ret1 ++ childStr) true
/-- The `for _, child := range f` loop of the `FilterOr` case (lines 108-120) over
the remaining children, with the current `ret` and `notFirst`. -/
def SearchRequest.decompileOr (s : SearchRequest) (f : List message.Filter)
    (lookup : Translator) (ret : String) (notFirst : Bool) : String × Option String :=
  match f with
  | [] => (ret, none)
  | child :: rest =>
    let ret1 := if notFirst then ret ++ ", " else ret
    match SearchRequest.decompileFilterMap s child lookup with
    | (_, some err) => (ret1, some err)
    | (childStr, none) =>
      SearchRequest.decompileOr s rest lookup (ret1 ++ "\x7b" ++ childStr ++ "\x7d") true
end

/-- Go: `func (s *SearchRequest) FilterMap(lookup Translator, wrap bool) string`;
the error of `decompileFilterMap` is dropped. -/
def SearchRequest.FilterMap (s : SearchRequest) (lookup : Translator) (wrap : Bool) : String :=
  let (str, _) := s.decompileFilterMap s.Filter lookup
  if wrap then "\x7b " ++ str ++ " \x7d" else str

/-! ## Specification-side rendering of initial and middle substring parts -/

/-- A substring part that is an initial part or a middle ("any") part, the two kinds
for which the specification gives the pattern explicitly. -/
inductive InitialOrAny where
  | Initial (text : String)
  | Any (text : String)
deriving DecidableEq, Repr

/-- The part of the filter tree an `InitialOrAny` stands for. -/
def InitialOrAny.toSubstring : InitialOrAny → Substring
  | .Initial text => .SubstringInitial text
  | .Any text => .SubstringAny text

/-- The pattern the specification states for the part: `"/^text*/"` for an initial
part (prefix-anchored) and `"/*text*/"` for a middle part (unanchored). -/
def InitialOrAny.specPattern : InitialOrAny → String
  | .Initial text => "\"/^" ++ text ++ "*/\""
  | .Any text => "\"/*" ++ text ++ "*/\""

/-! ## JSON form of `TransValType` (lines 16-22 and 45-67)

The `[]byte` argument and result are the strings they convert to and from
(`string(val)`, `[]byte(...)`), taken as sequences of Unicode code points. -/

/-- Go: `var translatorTypeToString map[TransValType]string`. -/
def translatorTypeToString : List (TransValType × String) :=
  [(TransVTInt, "int"), (TransVTString, "string"), (TransVTFloat, "float")]

/-- Go: `func (t TransValType) MarshalJSON() ([]byte, error)`. -/
def TransValType.MarshalJSON (t : TransValType) : String × Option String :=
  match translatorTypeToString.lookup t with
  | none => ("", some "No Such Translation Type")
  | some ts => (Sprintf "\"%s\"" [ts], none)

/-- Go's `unicode.ToLower`: an ASCII upper-case letter is shifted by `'a' - 'A'`,
any other ASCII code point is returned as it is, and a code point above ASCII is
looked up in the case table of Go's `unicode` package, which is taken as the
parameter `caseRanges`. -/
def unicode.ToLower (caseRanges : Char → Char) (r : Char) : Char :=
  if r.toNat ≤ 127 then
    if 'A'.toNat ≤ r.toNat ∧ r.toNat ≤ 'Z'.toNat then
      Char.ofNat (r.toNat + ('a'.toNat - 'A'.toNat))
    else r
  else caseRanges r

/-- Go's `strings.ToLower(s)`: every code point of `s` mapped by `unicode.ToLower`. -/
def strings.ToLower (caseRanges : Char → Char) (s : String) : String :=
  String.mk (s.data.map (unicode.ToLower caseRanges))

/-- Go's `strings.Trim(s, cutset)`: `s` without its leading and trailing code points
that occur in `cutset`. -/
def strings.Trim (s cutset : String) : String :=
  String.mk (((s.data.dropWhile fun c => cutset.data.contains c).reverse.dropWhile
    fun c => cutset.data.contains c).reverse)

/-- Go: `func (t *TransValType) UnmarshalJSON(val []byte) error`.  The first
component of the result is the value of `*t` after the call, the second the error. -/
def TransValType.UnmarshalJSON (caseRanges : Char → Char) (t : TransValType) (val : String) :
    TransValType × Option String :=
  let tok := strings.ToLower caseRanges (strings.Trim val "\"")
  if tok = "int" then (TransVTInt, none)
  else if tok = "string" then (TransVTString, none)
  else if tok = "float" then (TransVTFloat, none)
  else (t, some (Sprintf "Invalid Translation Type: [%s]" [val]))

/-- Two texts that differ at most in the case of their ASCII letters: they agree once
`A`..`Z` are replaced by `a`..`z`. -/
abbrev equalUpToAsciiCase (a b : String) : Prop :=
  a.data.map Char.toLower = b.data.map Char.toLower

/-! ## The recursion against a bounded call stack

`decompileFilterMap` calls itself at lines 98, 112 and 124 without any depth check.
Go grows the goroutine stack up to a fixed maximum; when a call does not fit, the
runtime stops the program with a fatal error, which is not a panic, so the deferred
`recover` of lines 80-84 does not run and the call never returns.  The number of
nested `decompileFilterMap` calls the stack holds depends on the runtime and is the
parameter `stack` below. -/

mutual
/-- Number of nested `decompileFilterMap` calls the compilation of a filter needs:
one for the node itself, plus the deepest child for `And`, `Or` and `Not`. -/
def Filter.callDepth : message.Filter → Nat
  | .FilterAnd f => 1 + Filter.callDepthList f
  | .FilterOr f => 1 + Filter.callDepthList f
  | .FilterNot inner => 1 + Filter.callDepth inner
  | .FilterSubstrings _ _ => 1
  | .FilterEqualityMatch _ _ => 1
  | .FilterGreaterOrEqual _ _ => 1
  | .FilterLessOrEqual _ _ => 1
  | .FilterPresent _ => 1
  | .FilterApproxMatch _ _ => 1
  | .other => 1
/-- The deepest `callDepth` among the children of an `And` or `Or`. -/
def Filter.callDepthList : List message.Filter → Nat
  | [] => 0
  | child :: rest => max (Filter.callDepth child) (Filter.callDepthList rest)
end

mutual
/-- The function `decompileFilterMap` run on a stack that holds `stack` more nested
calls of it.  The result `none` is the fatal stack overflow: the program stops and
nothing is returned.  When the call fits, the body is that of `decompileFilterMap`:
the cases `And`, `Or` and `Not` recurse with one call less available, every other
case makes no recursive call. -/
def SearchRequest.decompileFilterMapStack (s : SearchRequest) (packet : message.Filter)
    (lookup : Translator) (stack : Nat) : Option (String × Option String) :=
  match stack with
  | 0 => none
  | stack + 1 =>
    match packet with
    | .FilterAnd f => SearchRequest.decompileAndStack s f lookup "" false stack
    | .FilterOr f =>
      match SearchRequest.decompileOrStack s f lookup "\"$or\": [" false stack with
      | none => none
      | some (ret, some err) => some (ret, some err)
      | some (ret, none) => some (ret ++ "]", none)
    | .FilterNot inner =>
      match SearchRequest.decompileFilterMapStack s inner lookup stack with
      | none => none
      | some (_, some err) => some ("", some err)
      | some (childStr, none) => some ("\x7b \"$not:\" " ++ childStr ++ "\x7d", none)
    | .FilterSubstrings type_ substrings =>
      some (s.decompileFilterMap (.FilterSubstrings type_ substrings) lookup)
    | .FilterEqualityMatch attributeDesc assertionValue =>
      some (s.decompileFilterMap (.FilterEqualityMatch attributeDesc assertionValue) lookup)
    | .FilterGreaterOrEqual attributeDesc assertionValue =>
      some (s.decompileFilterMap (.FilterGreaterOrEqual attributeDesc assertionValue) lookup)
    | .FilterLessOrEqual attributeDesc assertionValue =>
      some (s.decompileFilterMap (.FilterLessOrEqual attributeDesc assertionValue) lookup)
    | .FilterPresent f => some (s.decompileFilterMap (.FilterPresent f) lookup)
    | .FilterApproxMatch attributeDesc assertionValue =>
      some (s.decompileFilterMap (.FilterApproxMatch attributeDesc assertionValue) lookup)
    | .other => some (s.decompileFilterMap .other lookup)
/-- The loop of the `FilterAnd` case (lines 92-104) when each recursive call has
`stack` nested calls available. -/
def SearchRequest.decompileAndStack (s : SearchRequest) (f : List message.Filter)
    (lookup : Translator) (ret : String) (notFirst : Bool) (stack : Nat) :
    Option (String × Option String) :=
  match f with
  | [] => some (ret, none)
  | child :: rest =>
    let ret1 := if notFirst then ret ++ ", " else ret
    match SearchRequest.decompileFilterMapStack s child lookup stack with
    | none => none
    | some (_, some err) => some (ret1, some err)
    | some (childStr, none) =>
      SearchRequest.decompileAndStack s rest lookup (ret1 ++ childStr) true stack
/-- The loop of the `FilterOr` case (lines 108-120) when each recursive call has
`stack` nested calls available. -/
def SearchRequest.decompileOrStack (s : SearchRequest) (f : List message.Filter)
    (lookup : Translator) (ret : String) (notFirst : Bool) (stack : Nat) :
    Option (String × Option String) :=
  match f with
  | [] => some (ret, none)
  | child :: rest =>
    let ret1 := if notFirst then ret ++ ", " else ret
    match SearchRequest.decompileFilterMapStack s child lookup stack with
    | none => none
    | some (_, some err) => some (ret1, some err)
    | some (childStr, none) =>
      SearchRequest.decompileOrStack s rest lookup (ret1 ++ "\x7b" ++ childStr ++ "\x7d") true
        stack
end

/-- A chain of `n` nested `Not` nodes around `Present(cn)`. -/
def notChain : Nat → Filter
  | 0 => .FilterPresent "cn"
  | n + 1 => .FilterNot (notChain n)

/-! ## Lemmas on the format strings of the program -/

theorem Sprintf_eq_quoted (v : String) :
    Sprintf "\x7b\"$eq\": \"%s\"\x7d" [v] = "\x7b\"$eq\": \"" ++ v ++ "\"\x7d" := by
  apply String.ext
  simp [Sprintf, doPrintf]

theorem Sprintf_in_quoted (v : String) :
    Sprintf "\x7b\"$in\": [\"%s\"]\x7d" [v] = "\x7b\"$in\": [\"" ++ v ++ "\"]\x7d" := by
  apply String.ext
  simp [Sprintf, doPrintf]

theorem Sprintf_eq_raw (v : String) :
    Sprintf "\x7b\"$eq\": %s\x7d\"" [v] = "\x7b\"$eq\": " ++ v ++ "\x7d\"" := by
  apply String.ext
  simp [Sprintf, doPrintf]

theorem Sprintf_in_raw (v : String) :
    Sprintf "\x7b\"$in\": [%s]\x7d" [v] = "\x7b\"$in\": [" ++ v ++ "]\x7d" := by
  apply String.ext
  simp [Sprintf, doPrintf]

theorem Replace_of_lookup_some (lookup : Translator) (key : String) (xlat : TranslatorElem)
    (h : lookup.Table.lookup key = some xlat) :
    lookup.Replace key = ("\"" ++ xlat.Name ++ "\"", some xlat) := by
  simp [Translator.Replace, h]

theorem Replace_of_lookup_none (lookup : Translator) (key : String)
    (h : lookup.Table.lookup key = none) :
    lookup.Replace key = ("\"" ++ key ++ "\"", none) := by
  simp [Translator.Replace, h]

/-! ## The compiler never reports an error -/

mutual
theorem decompileFilterMap_err (s : SearchRequest) (lookup : Translator) :
    ∀ packet : Filter, (s.decompileFilterMap packet lookup).2 = none
  | .FilterAnd f => by
    simp only [SearchRequest.decompileFilterMap]
    exact decompileAnd_err s lookup f _ _
  | .FilterOr f => by
    have h := decompileOr_err s lookup f "\"$or\": [" false
    simp only [SearchRequest.decompileFilterMap]
    split
    · rename_i ret err he
      rw [he] at h
      simp at h
    · rfl
  | .FilterNot inner => by
    have h := decompileFilterMap_err s lookup inner
    simp only [SearchRequest.decompileFilterMap]
    split
    · rename_i err he
      rw [he] at h
      simp at h
    · rfl
  | .FilterSubstrings _ _ => by simp [SearchRequest.decompileFilterMap]
  | .FilterEqualityMatch _ _ => by simp [SearchRequest.decompileFilterMap]
  | .FilterGreaterOrEqual _ _ => by simp [SearchRequest.decompileFilterMap]
  | .FilterLessOrEqual _ _ => by simp [SearchRequest.decompileFilterMap]
  | .FilterPresent _ => by simp [SearchRequest.decompileFilterMap]
  | .FilterApproxMatch _ _ => by simp [SearchRequest.decompileFilterMap]
  | .other => by simp [SearchRequest.decompileFilterMap]
theorem decompileAnd_err (s : SearchRequest) (lookup : Translator) :
    ∀ (f : List Filter) (ret : String) (notFirst : Bool),
      (s.decompileAnd f lookup ret notFirst).2 = none
  | [], _, _ => by simp [SearchRequest.decompileAnd]
  | child :: rest, ret, notFirst => by
    have h := decompileFilterMap_err s lookup child
    simp only [SearchRequest.decompileAnd]
    split
    · rename_i err he
      rw [he] at h
      simp at h
    · exact decompileAnd_err s lookup rest _ _
theorem decompileOr_err (s : SearchRequest) (lookup : Translator) :
    ∀ (f : List Filter) (ret : String) (notFirst : Bool),
      (s.decompileOr f lookup ret notFirst).2 = none
  | [], _, _ => by simp [SearchRequest.decompileOr]
  | child :: rest, ret, notFirst => by
    have h := decompileFilterMap_err s lookup child
    simp only [SearchRequest.decompileOr]
    split
    · rename_i err he
      rw [he] at h
      simp at h
    · exact decompileOr_err s lookup rest _ _
end

theorem decompileFilterMap_eq (s : SearchRequest) (lookup : Translator) (packet : Filter) :
    s.decompileFilterMap packet lookup = ((s.decompileFilterMap packet lookup).1, none) := by
  have h := decompileFilterMap_err s lookup packet
  exact Prod.ext rfl h

theorem intercalate_go_append (p sep : String) :
    ∀ (l : List String) (acc : String),
      String.intercalate.go (p ++ acc) sep l = p ++ String.intercalate.go acc sep l
  | [], _ => rfl
  | a :: as, acc => by
    simp only [String.intercalate.go]
    rw [String.append_assoc, String.append_assoc, ← String.append_assoc acc]
    exact intercalate_go_append p sep as _

theorem decompileAnd_notFirst (s : SearchRequest) (lookup : Translator) :
    ∀ (f : List Filter) (ret : String),
      s.decompileAnd f lookup ret true =
        (String.intercalate.go ret ", " (f.map fun c => (s.decompileFilterMap c lookup).1), none)
  | [], _ => by simp [SearchRequest.decompileAnd, String.intercalate.go]
  | child :: rest, ret => by
    simp only [SearchRequest.decompileAnd, List.map_cons, String.intercalate.go]
    rw [decompileFilterMap_eq s lookup child]
    exact decompileAnd_notFirst s lookup rest _

theorem decompileOr_notFirst (s : SearchRequest) (lookup : Translator) :
    ∀ (f : List Filter) (ret : String),
      s.decompileOr f lookup ret true =
        (String.intercalate.go ret ", "
          (f.map fun c => "\x7b" ++ (s.decompileFilterMap c lookup).1 ++ "\x7d"), none)
  | [], _ => by simp [SearchRequest.decompileOr, String.intercalate.go]
  | child :: rest, ret => by
    simp only [SearchRequest.decompileOr, List.map_cons, String.intercalate.go]
    rw [decompileFilterMap_eq s lookup child]
    simp only [if_true]
    rw [decompileOr_notFirst s lookup rest _]
    simp only [String.append_assoc]

theorem foldl_append_eq_join :
    ∀ (l : List String) (init : String),
      l.foldl (fun r t => r ++ t) init = init ++ String.join l
  | [], init => by simp [String.join]
  | t :: l, init => by
    have h1 := foldl_append_eq_join l (init ++ t)
    have h2 := foldl_append_eq_join l ("" ++ t)
    simp only [String.join, List.foldl_cons] at h1 h2 ⊢
    rw [h1, h2, String.empty_append, String.append_assoc]

theorem foldl_substringText (l : List Substring) (init : String) :
    l.foldl (fun ret fs => ret ++ substringText fs) init =
      init ++ String.join (l.map substringText) := by
  rw [← foldl_append_eq_join, List.foldl_map]

theorem substringText_toSubstring (p : InitialOrAny) :
    substringText p.toSubstring = p.specPattern := by
  cases p <;>
    simp only [InitialOrAny.toSubstring, InitialOrAny.specPattern, substringText] <;>
    apply String.ext <;>
    simp [Sprintf, doPrintf]

theorem map_substringText_toSubstring (parts : List InitialOrAny) :
    (parts.map InitialOrAny.toSubstring).map substringText =
      parts.map InitialOrAny.specPattern := by
  simp [List.map_map, Function.comp_def, substringText_toSubstring]

/-! ## Equality match (claims C1-C4) -/

/-- C1: when the table maps attribute `a` to a record with target name `n`, type
String and array flag `b`, compiling `EqualityMatch(a, v)` succeeds with
`"n":{"$eq": "v"}` for `b = false` and `"n":{"$in": ["v"]}` for `b = true`, and
`FilterMap` with `wrap = true` surrounds that string with `"{ "` and `" }"`. -/
theorem equalityMatch_string (s : SearchRequest) (lookup : Translator) (a n v : String)
    (b : Bool) (h : lookup.Table.lookup a = some ⟨n, TransVTString, b⟩) :
    s.decompileFilterMap (.FilterEqualityMatch a v) lookup =
        (if b then "\"" ++ n ++ "\":\x7b\"$in\": [\"" ++ v ++ "\"]\x7d"
          else "\"" ++ n ++ "\":\x7b\"$eq\": \"" ++ v ++ "\"\x7d", none) ∧
      SearchRequest.FilterMap ⟨.FilterEqualityMatch a v⟩ lookup true =
        "\x7b " ++ (if b then "\"" ++ n ++ "\":\x7b\"$in\": [\"" ++ v ++ "\"]\x7d"
          else "\"" ++ n ++ "\":\x7b\"$eq\": \"" ++ v ++ "\"\x7d") ++ " \x7d" := by
  have hr := Replace_of_lookup_some lookup a _ h
  cases b <;>
    simp [SearchRequest.FilterMap, SearchRequest.Filter, SearchRequest.decompileFilterMap, hr,
      equalityValue, TransVTString, TransVTInt, TransVTFloat, Sprintf_eq_quoted,
      Sprintf_in_quoted, String.append_assoc] <;>
    constructor <;> apply String.ext <;> simp

/-- C1 at the spec's scenario: table `uid -> (userId, String, false)` and
`EqualityMatch(uid, alice)`. -/
theorem equalityMatch_string_witness :
    (Translator.mk [("uid", ⟨"userId", TransVTString, false⟩)]).Table.lookup "uid" =
        some ⟨"userId", TransVTString, false⟩ ∧
      (SearchRequest.mk (.FilterEqualityMatch "uid" "alice")).decompileFilterMap
          (.FilterEqualityMatch "uid" "alice") ⟨[("uid", ⟨"userId", TransVTString, false⟩)]⟩ =
        ("\"userId\":\x7b\"$eq\": \"alice\"\x7d", none) ∧
      SearchRequest.FilterMap ⟨.FilterEqualityMatch "uid" "alice"⟩
          ⟨[("uid", ⟨"userId", TransVTString, false⟩)]⟩ true =
        "\x7b \"userId\":\x7b\"$eq\": \"alice\"\x7d \x7d" :=
  ⟨by decide, equalityMatch_string ⟨.FilterEqualityMatch "uid" "alice"⟩
    ⟨[("uid", ⟨"userId", TransVTString, false⟩)]⟩ "uid" "userId" "alice" false (by decide)⟩

/-- C2 (the code at a failing input): with the record `(age, Int, false)` for
`age`, compiling `EqualityMatch(age, 5)` yields `"age":{"$eq": 5}"`, which carries a
double quote after the closing brace and so is not `"age":{"$eq": 5}`. -/
theorem equalityMatch_numeric_scalar_trailing_quote :
    (SearchRequest.mk (.FilterEqualityMatch "age" "5")).decompileFilterMap
        (.FilterEqualityMatch "age" "5") ⟨[("age", ⟨"age", TransVTInt, false⟩)]⟩ =
      ("\"age\":\x7b\"$eq\": 5\x7d\"", none) ∧
    (SearchRequest.mk (.FilterEqualityMatch "age" "5")).decompileFilterMap
        (.FilterEqualityMatch "age" "5") ⟨[("age", ⟨"age", TransVTInt, false⟩)]⟩ ≠
      ("\"age\":\x7b\"$eq\": 5\x7d", none) := by
  decide

/-- C3: when the table maps attribute `a` to a record with target name `n`, type Int
or Float and the array flag set, compiling `EqualityMatch(a, v)` returns
`"n":{"$in": [v]}` with `v` unquoted. -/
theorem equalityMatch_numeric_array (s : SearchRequest) (lookup : Translator) (a n v : String)
    (ty : TransValType) (hty : ty = TransVTInt ∨ ty = TransVTFloat)
    (h : lookup.Table.lookup a = some ⟨n, ty, true⟩) :
    s.decompileFilterMap (.FilterEqualityMatch a v) lookup =
      ("\"" ++ n ++ "\":\x7b\"$in\": [" ++ v ++ "]\x7d", none) := by
  have hr := Replace_of_lookup_some lookup a _ h
  simp [SearchRequest.decompileFilterMap, hr, equalityValue, hty, Sprintf_in_raw]
  apply String.ext
  simp

/-- C3 at the spec's example: type Int, array, value `5`. -/
theorem equalityMatch_numeric_array_witness :
    (TransVTInt = TransVTInt ∨ TransVTInt = TransVTFloat) ∧
      (Translator.mk [("memberOf", ⟨"groups", TransVTInt, true⟩)]).Table.lookup "memberOf" =
        some ⟨"groups", TransVTInt, true⟩ ∧
      (SearchRequest.mk (.FilterEqualityMatch "memberOf" "5")).decompileFilterMap
          (.FilterEqualityMatch "memberOf" "5") ⟨[("memberOf", ⟨"groups", TransVTInt, true⟩)]⟩ =
        ("\"groups\":\x7b\"$in\": [5]\x7d", none) :=
  ⟨by decide, by decide, equalityMatch_numeric_array ⟨.FilterEqualityMatch "memberOf" "5"⟩
    ⟨[("memberOf", ⟨"groups", TransVTInt, true⟩)]⟩ "memberOf" "groups" "5" TransVTInt
    (by decide) (by decide)⟩

/-- C4: when the table has no entry for attribute `a`, compiling
`EqualityMatch(a, v)` returns `"a":{"$eq": "v"}`: the original attribute name
quoted as the key and the value quoted. -/
theorem equalityMatch_no_entry (s : SearchRequest) (lookup : Translator) (a v : String)
    (h : lookup.Table.lookup a = none) :
    s.decompileFilterMap (.FilterEqualityMatch a v) lookup =
      ("\"" ++ a ++ "\":\x7b\"$eq\": \"" ++ v ++ "\"\x7d", none) := by
  have hr := Replace_of_lookup_none lookup a h
  simp [SearchRequest.decompileFilterMap, hr, equalityValue, Sprintf_eq_quoted]
  apply String.ext
  simp

/-- C4 at the spec's example: value `bob` for an attribute absent from the table. -/
theorem equalityMatch_no_entry_witness :
    (Translator.mk [("uid", ⟨"userId", TransVTString, false⟩)]).Table.lookup "cn" = none ∧
      (SearchRequest.mk (.FilterEqualityMatch "cn" "bob")).decompileFilterMap
          (.FilterEqualityMatch "cn" "bob") ⟨[("uid", ⟨"userId", TransVTString, false⟩)]⟩ =
        ("\"cn\":\x7b\"$eq\": \"bob\"\x7d", none) :=
  ⟨by decide, equalityMatch_no_entry ⟨.FilterEqualityMatch "cn" "bob"⟩
    ⟨[("uid", ⟨"userId", TransVTString, false⟩)]⟩ "cn" "bob" (by decide)⟩

/-! ## Combinators (claims C5-C7) -/

/-- C5: compiling `And(children)` returns the children's renderings in sequence
order joined by `", "`, with nothing added around them; in particular
`And([A, B])` renders as the rendering of `A`, then `", "`, then the rendering of
`B`, and `And([])` renders the empty string. -/
theorem decompileFilterMap_and (s : SearchRequest) (lookup : Translator) :
    (∀ children : List Filter,
      s.decompileFilterMap (.FilterAnd children) lookup =
        (", ".intercalate (children.map fun c => (s.decompileFilterMap c lookup).1), none)) ∧
    (∀ A B : Filter,
      s.decompileFilterMap (.FilterAnd [A, B]) lookup =
        ((s.decompileFilterMap A lookup).1 ++ ", " ++ (s.decompileFilterMap B lookup).1, none)) ∧
    s.decompileFilterMap (.FilterAnd []) lookup = ("", none) := by
  have hall : ∀ children : List Filter,
      s.decompileFilterMap (.FilterAnd children) lookup =
        (", ".intercalate (children.map fun c => (s.decompileFilterMap c lookup).1), none) := by
    intro children
    cases children with
    | nil => simp [SearchRequest.decompileFilterMap, SearchRequest.decompileAnd, String.intercalate]
    | cons child rest =>
      simp only [SearchRequest.decompileFilterMap, SearchRequest.decompileAnd, List.map_cons,
        String.intercalate]
      rw [decompileFilterMap_eq s lookup child]
      simp [decompileAnd_notFirst]
  refine ⟨hall, ?_, ?_⟩
  · intro A B
    rw [hall]
    simp [String.intercalate, String.intercalate.go]
  · rw [hall]
    simp [String.intercalate]

/-- C6: compiling `Or(children)` returns `"$or": [`, then each child's rendering
wrapped in braces, in sequence order and separated by `", "`, then `]`; in particular
`Or([A, B])` renders as `"$or": [{A}, {B}]` and `Or([])` as `"$or": []`. -/
theorem decompileFilterMap_or (s : SearchRequest) (lookup : Translator) :
    (∀ children : List Filter,
      s.decompileFilterMap (.FilterOr children) lookup =
        ("\"$or\": [" ++
          ", ".intercalate
            (children.map fun c => "\x7b" ++ (s.decompileFilterMap c lookup).1 ++ "\x7d") ++
          "]", none)) ∧
    (∀ A B : Filter,
      s.decompileFilterMap (.FilterOr [A, B]) lookup =
        ("\"$or\": [\x7b" ++ (s.decompileFilterMap A lookup).1 ++ "\x7d, \x7b" ++
          (s.decompileFilterMap B lookup).1 ++ "\x7d]", none)) ∧
    s.decompileFilterMap (.FilterOr []) lookup = ("\"$or\": []", none) := by
  have hall : ∀ children : List Filter,
      s.decompileFilterMap (.FilterOr children) lookup =
        ("\"$or\": [" ++
          ", ".intercalate
            (children.map fun c => "\x7b" ++ (s.decompileFilterMap c lookup).1 ++ "\x7d") ++
          "]", none) := by
    intro children
    cases children with
    | nil =>
      simp [SearchRequest.decompileFilterMap, SearchRequest.decompileOr, String.intercalate]
    | cons child rest =>
      simp only [SearchRequest.decompileFilterMap, SearchRequest.decompileOr, List.map_cons,
        String.intercalate]
      rw [decompileFilterMap_eq s lookup child]
      simp only [decompileOr_notFirst, Bool.false_eq_true, if_false, String.append_assoc]
      rw [intercalate_go_append]
      simp only [String.append_assoc]
  refine ⟨hall, ?_, ?_⟩
  · intro A B
    rw [hall]
    simp only [List.map_cons, List.map_nil, String.intercalate, String.intercalate.go,
      Prod.mk.injEq, and_true]
    apply String.ext
    simp
  · rw [hall]
    simp only [List.map_nil, String.intercalate, Prod.mk.injEq, and_true]
    decide

/-- C7 (as stated, refuted): for `Not(Present(cn))` the output is not the inner
rendering followed by a space and a closing brace. -/
theorem decompileFilterMap_not_no_space_before_brace :
    (SearchRequest.mk (.FilterNot (.FilterPresent "cn"))).decompileFilterMap
        (.FilterNot (.FilterPresent "cn")) ⟨[]⟩ ≠
      ("\x7b \"$not:\" " ++
        ((SearchRequest.mk (.FilterNot (.FilterPresent "cn"))).decompileFilterMap
          (.FilterPresent "cn") ⟨[]⟩).1 ++ " \x7d", none) := by
  decide

/-- C7 (amended): when the inner filter `x` compiles to `r`, compiling `Not(x)`
returns an opening brace, a space, the token `"$not:"` with the colon inside the
quotes, a space, `r`, and the closing brace directly after `r`. -/
theorem decompileFilterMap_not (s : SearchRequest) (lookup : Translator) (x : Filter)
    (r : String) (h : s.decompileFilterMap x lookup = (r, none)) :
    s.decompileFilterMap (.FilterNot x) lookup = ("\x7b \"$not:\" " ++ r ++ "\x7d", none) := by
  simp [SearchRequest.decompileFilterMap, h]

/-- C7 (amended) at `Not(Present(cn))`. -/
theorem decompileFilterMap_not_witness :
    (SearchRequest.mk (.FilterNot (.FilterPresent "cn"))).decompileFilterMap
        (.FilterPresent "cn") ⟨[]⟩ = ("\"cn\":\x7b\"$exists\": true\x7d", none) ∧
      (SearchRequest.mk (.FilterNot (.FilterPresent "cn"))).decompileFilterMap
        (.FilterNot (.FilterPresent "cn")) ⟨[]⟩ =
      ("\x7b \"$not:\" \"cn\":\x7b\"$exists\": true\x7d\x7d", none) :=
  ⟨by decide, decompileFilterMap_not ⟨.FilterNot (.FilterPresent "cn")⟩ ⟨[]⟩
    (.FilterPresent "cn") "\"cn\":\x7b\"$exists\": true\x7d" (by decide)⟩

/-! ## Presence and substrings (claims C8-C10) -/

/-- C8 (as stated, refuted): `Present(cn)` does not render with a space between the
colon and the value object. -/
theorem decompileFilterMap_present_no_space_after_colon :
    (SearchRequest.mk (.FilterPresent "cn")).decompileFilterMap (.FilterPresent "cn") ⟨[]⟩ ≠
      ("\"cn\": \x7b\"$exists\": true\x7d", none) := by
  decide

/-- C8 (amended): for every table, with or without an entry for `a`, compiling
`Present(a)` returns the literal attribute name quoted, a colon, and
`{"$exists": true}` directly after the colon. -/
theorem decompileFilterMap_present (s : SearchRequest) (lookup : Translator) (a : String) :
    s.decompileFilterMap (.FilterPresent a) lookup =
      ("\"" ++ a ++ "\":\x7b\"$exists\": true\x7d", none) := by
  simp only [SearchRequest.decompileFilterMap, Prod.mk.injEq, and_true]
  apply String.ext
  simp

/-- C9: for every table and every sequence of initial and middle parts, compiling
`Substrings(a, parts)` returns the literal attribute name quoted, a colon, and the
parts' patterns concatenated in order without separators, `"/^s*/"` for
`Initial(s)` and `"/*s*/"` for `Any(s)`; with no parts the output is `"a":`. -/
theorem decompileFilterMap_substrings_initial_any (s : SearchRequest) (lookup : Translator)
    (a : String) :
    (∀ parts : List InitialOrAny,
      s.decompileFilterMap (.FilterSubstrings a (parts.map InitialOrAny.toSubstring)) lookup =
        ("\"" ++ a ++ "\":" ++ String.join (parts.map InitialOrAny.specPattern), none)) ∧
    s.decompileFilterMap (.FilterSubstrings a []) lookup = ("\"" ++ a ++ "\":", none) := by
  constructor
  · intro parts
    simp only [SearchRequest.decompileFilterMap, Prod.mk.injEq, and_true]
    rw [foldl_substringText, map_substringText_toSubstring]
    apply String.ext
    simp
  · simp only [SearchRequest.decompileFilterMap, List.foldl_nil, Prod.mk.injEq, and_true]
    apply String.ext
    simp

/-- C10 (the code at a failing input): compiling `Substrings(cn, [Final(son)])`
yields `"cn":"/$s/"%!(EXTRA string=*son)`: the quoted literal holds the characters
`$s` instead of the part's text, and the text follows in an `EXTRA` report outside
the quotes. -/
theorem decompileFilterMap_substrings_final_extra :
    (SearchRequest.mk (.FilterSubstrings "cn" [.SubstringFinal "son"])).decompileFilterMap
        (.FilterSubstrings "cn" [.SubstringFinal "son"]) ⟨[]⟩ =
      ("\"cn\":\"/$s/\"%!(EXTRA string=*son)", none) := by
  decide

/-! ## Range and approximate match, the entry point, the table (claims C11-C14) -/

/-- C11: compiling `GreaterOrEqual(a, v)` returns the name rendered by `Replace(a)`,
a colon, and `{"$gte": v}` with `v` raw and unquoted, for every table and so whatever
the record's type; `LessOrEqual(a, v)` returns the same with `$lte`. -/
theorem decompileFilterMap_range (s : SearchRequest) (lookup : Translator) (a v : String) :
    s.decompileFilterMap (.FilterGreaterOrEqual a v) lookup =
        ((lookup.Replace a).1 ++ ":\x7b\"$gte\": " ++ v ++ "\x7d", none) ∧
      s.decompileFilterMap (.FilterLessOrEqual a v) lookup =
        ((lookup.Replace a).1 ++ ":\x7b\"$lte\": " ++ v ++ "\x7d", none) := by
  constructor <;>
    simp only [SearchRequest.decompileFilterMap, Prod.mk.injEq, and_true] <;>
    apply String.ext <;>
    simp [Sprintf, doPrintf]

/-- C12: compiling `ApproxMatch(a, v)` returns the name rendered by `Replace(a)`, a
colon, and `"/v/"` with `v` copied verbatim; for instance a value holding a double
quote, a slash and a backslash comes out unchanged. -/
theorem decompileFilterMap_approx (s : SearchRequest) (lookup : Translator) (a v : String) :
    s.decompileFilterMap (.FilterApproxMatch a v) lookup =
        ((lookup.Replace a).1 ++ ":\"/" ++ v ++ "/\"", none) ∧
      s.decompileFilterMap (.FilterApproxMatch "cn" "a\"b/c\\d") ⟨[]⟩ =
        ("\"cn\":\"/a\"b/c\\d/\"", none) := by
  have h : ∀ (lookup : Translator) (a v : String),
      s.decompileFilterMap (.FilterApproxMatch a v) lookup =
        ((lookup.Replace a).1 ++ ":\"/" ++ v ++ "/\"", none) := by
    intro lookup a v
    simp only [SearchRequest.decompileFilterMap, Prod.mk.injEq, and_true]
    apply String.ext
    simp [Sprintf, doPrintf]
  refine ⟨h lookup a v, ?_⟩
  rw [h]
  decide

/-- C13: `FilterMap` with `wrap = false` returns exactly the string produced by
`decompileFilterMap` on the request's filter, and with `wrap = true` that string
between `"{ "` and `" }"`. -/
theorem FilterMap_wrap (s : SearchRequest) (lookup : Translator) :
    s.FilterMap lookup false = (s.decompileFilterMap s.Filter lookup).1 ∧
      s.FilterMap lookup true = "\x7b " ++ s.FilterMap lookup false ++ " \x7d" := by
  simp [SearchRequest.FilterMap]

/-- C14: `Replace(k)` always returns a result: when the table has an entry `e` for
`k`, the entry's `Name` between double quotes together with a record equal to `e`;
when it has none, `k` between double quotes together with no record. -/
theorem Replace_spec (t : Translator) (k : String) :
    (∀ e : TranslatorElem, t.Table.lookup k = some e →
        t.Replace k = ("\"" ++ e.Name ++ "\"", some e)) ∧
      (t.Table.lookup k = none → t.Replace k = ("\"" ++ k ++ "\"", none)) := by
  constructor
  · intro e h
    simp [Translator.Replace, h]
  · intro h
    simp [Translator.Replace, h]

/-- C14 on the table `uid -> (userId, String, false)`: `uid` has an entry, `cn` has
none. -/
theorem Replace_spec_witness :
    (Translator.mk [("uid", ⟨"userId", TransVTString, false⟩)]).Replace "uid" =
        ("\"userId\"", some ⟨"userId", TransVTString, false⟩) ∧
      (Translator.mk [("uid", ⟨"userId", TransVTString, false⟩)]).Replace "cn" =
        ("\"cn\"", none) :=
  ⟨(Replace_spec ⟨[("uid", ⟨"userId", TransVTString, false⟩)]⟩ "uid").1
      ⟨"userId", TransVTString, false⟩ (by decide),
    (Replace_spec ⟨[("uid", ⟨"userId", TransVTString, false⟩)]⟩ "cn").2 (by decide)⟩

/-! ## Lemmas on case folding and trimming -/

theorem toLower_quote : Char.toLower '"' = '"' := by decide

theorem ne_quote_of_toLower (c d : Char) (h : c.toLower = d) (hd : d ≠ '"') : c ≠ '"' := by
  intro hc
  subst hc
  exact hd (h ▸ toLower_quote)

theorem eq_quote_of_toLower (c : Char) (h : c.toLower = '"') : c = '"' := by
  unfold Char.toLower at h
  simp only at h
  split at h
  · rename_i hn
    obtain ⟨h1, h2⟩ := hn
    have h3 : (Char.ofNat (c.toNat + 32)).toNat = 34 := by rw [h]; decide
    interval_cases hc : c.toNat <;> exact absurd h3 (by decide)
  · exact h

theorem unicode_ToLower_of_toLower (caseRanges : Char → Char) (c d : Char)
    (h : c.toLower = d) (hd : d.toNat ≤ 127) : unicode.ToLower caseRanges c = d := by
  unfold Char.toLower at h
  simp only at h
  unfold unicode.ToLower
  split at h
  · rename_i hn
    have h1 : c.toNat ≤ 127 := by omega
    have h2 : 'A'.toNat ≤ c.toNat ∧ c.toNat ≤ 'Z'.toNat := hn
    rw [if_pos h1, if_pos h2]
    exact h
  · rename_i hn
    subst h
    have h2 : ¬ ('A'.toNat ≤ c.toNat ∧ c.toNat ≤ 'Z'.toNat) := hn
    rw [if_pos hd, if_neg h2]

theorem Trim_quoted (M ini rest : List Char) (a z : Char) (ha : a ≠ '"') (hz : z ≠ '"')
    (hM : M = a :: rest) (hini : M = ini ++ [z]) :
    strings.Trim (String.mk ('"' :: M ++ ['"'])) "\"" = String.mk M := by
  unfold strings.Trim
  congr 1
  have hp : ∀ c : Char, ("\"".data.contains c) = (c == '"') := by
    intro c
    simp only [List.contains, List.elem]
    cases c == '"' <;> rfl
  simp only [hp]
  have h1 : List.dropWhile (fun c => c == '"') ('"' :: M ++ ['"']) = M ++ ['"'] := by
    rw [hM]
    simp [List.dropWhile_cons, ha]
  rw [h1, hini]
  simp [List.dropWhile_cons, hz]

/-- A text that is, up to ASCII case, a quoted word of ASCII characters other than
the double quote is trimmed and lower-cased to that word. -/
theorem ToLower_Trim_of_quoted (caseRanges : Char → Char) (w : String) (T : List Char)
    (hne : T ≠ []) (hT : ∀ d ∈ T, d ≠ '"' ∧ d.toNat ≤ 127)
    (h : w.data.map Char.toLower = '"' :: T ++ ['"']) :
    strings.ToLower caseRanges (strings.Trim w "\"") = String.mk T := by
  rw [List.cons_append, List.map_eq_cons_iff] at h
  obtain ⟨q1, L1, hw, hq1, hL1⟩ := h
  rw [List.map_eq_append_iff] at hL1
  obtain ⟨M, L2, hL, hMT, hL2⟩ := hL1
  rw [List.map_eq_cons_iff] at hL2
  obtain ⟨q2, L3, hL2e, hq2, hL3⟩ := hL2
  have hL3n : L3 = [] := List.map_eq_nil_iff.mp hL3
  have e1 := eq_quote_of_toLower q1 hq1
  have e2 := eq_quote_of_toLower q2 hq2
  subst e1 e2 hL3n hL2e hL
  have hmem : ∀ m ∈ M, m.toLower ≠ '"' ∧ m.toLower.toNat ≤ 127 := by
    intro m hm
    exact hT _ (hMT ▸ List.mem_map_of_mem _ hm)
  have hMne : M ≠ [] := by
    intro hM
    rw [hM] at hMT
    exact hne hMT.symm
  obtain ⟨a, rest, hcons⟩ := List.exists_cons_of_ne_nil hMne
  rcases List.eq_nil_or_concat' M with hnil | ⟨ini, z, hconcat⟩
  · exact absurd hnil hMne
  · have ha : a ≠ '"' :=
      ne_quote_of_toLower a _ rfl (hmem a (by rw [hcons]; exact List.mem_cons_self _ _)).1
    have hz : z ≠ '"' :=
      ne_quote_of_toLower z _ rfl (hmem z (by rw [hconcat]; simp)).1
    have hwe : w = String.mk ('"' :: M ++ ['"']) := by
      apply String.ext
      rw [hw]
      rfl
    rw [hwe, Trim_quoted M ini rest a z ha hz hcons hconcat]
    unfold strings.ToLower
    congr 1
    rw [← hMT]
    exact List.map_congr_left fun m hm =>
      unicode_ToLower_of_toLower caseRanges m _ rfl (hmem m hm).2

/-! ## JSON form of the value type (claims C15-C17) -/

/-- C15: for each of Int, String and Float, `MarshalJSON` returns the lower-case
quoted token without error, and `UnmarshalJSON` applied to any text that differs
from that token at most in the case of its ASCII letters, in particular to the token
itself, succeeds and sets the target to the value. -/
theorem MarshalJSON_UnmarshalJSON_roundtrip (caseRanges : Char → Char) (v : TransValType)
    (hv : v = TransVTInt ∨ v = TransVTString ∨ v = TransVTFloat) :
    TransValType.MarshalJSON v =
        (if v = TransVTInt then "\"int\"" else if v = TransVTString then "\"string\""
          else "\"float\"", none) ∧
      (∀ (t : TransValType) (w : String),
        equalUpToAsciiCase w (TransValType.MarshalJSON v).1 →
          TransValType.UnmarshalJSON caseRanges t w = (v, none)) ∧
      ∀ t : TransValType,
        TransValType.UnmarshalJSON caseRanges t (TransValType.MarshalJSON v).1 = (v, none) := by
  have key : ∀ (t : TransValType) (w : String),
      equalUpToAsciiCase w (TransValType.MarshalJSON v).1 →
        TransValType.UnmarshalJSON caseRanges t w = (v, none) := by
    intro t w h
    rcases hv with rfl | rfl | rfl
    · have hd : (TransValType.MarshalJSON TransVTInt).1.data.map Char.toLower =
          '"' :: "int".data ++ ['"'] := by decide
      have hc := ToLower_Trim_of_quoted caseRanges w "int".data (by decide) (by decide)
        (h.trans hd)
      unfold TransValType.UnmarshalJSON
      simp only [hc]
      rw [if_pos (by decide)]
    · have hd : (TransValType.MarshalJSON TransVTString).1.data.map Char.toLower =
          '"' :: "string".data ++ ['"'] := by decide
      have hc := ToLower_Trim_of_quoted caseRanges w "string".data (by decide) (by decide)
        (h.trans hd)
      unfold TransValType.UnmarshalJSON
      simp only [hc]
      rw [if_neg (by decide), if_pos (by decide)]
    · have hd : (TransValType.MarshalJSON TransVTFloat).1.data.map Char.toLower =
          '"' :: "float".data ++ ['"'] := by decide
      have hc := ToLower_Trim_of_quoted caseRanges w "float".data (by decide) (by decide)
        (h.trans hd)
      unfold TransValType.UnmarshalJSON
      simp only [hc]
      rw [if_neg (by decide), if_neg (by decide), if_pos (by decide)]
  refine ⟨?_, key, fun t => key t _ rfl⟩
  rcases hv with rfl | rfl | rfl <;> decide

/-- C15 at String: the token is `"string"`, and `"StRiNG"` decodes to String. -/
theorem MarshalJSON_UnmarshalJSON_roundtrip_witness :
    (TransVTString = TransVTInt ∨ TransVTString = TransVTString ∨
        TransVTString = TransVTFloat) ∧
      TransValType.MarshalJSON TransVTString = ("\"string\"", none) ∧
      equalUpToAsciiCase "\"StRiNG\"" (TransValType.MarshalJSON TransVTString).1 ∧
      TransValType.UnmarshalJSON id TransVTInt "\"StRiNG\"" = (TransVTString, none) :=
  ⟨by decide,
    (MarshalJSON_UnmarshalJSON_roundtrip id TransVTString (by decide)).1,
    by decide,
    (MarshalJSON_UnmarshalJSON_roundtrip id TransVTString (by decide)).2.1 TransVTInt
      "\"StRiNG\"" (by decide)⟩

/-- C16 (as stated, refuted): the text `"int` with an opening double quote and no
closing one is, up to letter case, none of the tokens `"int"`, `"string"`, `"float"`
(nor one of the bare words `int`, `string`, `float`), yet `UnmarshalJSON` accepts it
and sets the target (here holding Float) to Int. -/
theorem UnmarshalJSON_accepts_half_quoted :
    (¬ equalUpToAsciiCase "\"int" "\"int\"" ∧ ¬ equalUpToAsciiCase "\"int" "\"string\"" ∧
        ¬ equalUpToAsciiCase "\"int" "\"float\"") ∧
      (¬ equalUpToAsciiCase "\"int" "int" ∧ ¬ equalUpToAsciiCase "\"int" "string" ∧
        ¬ equalUpToAsciiCase "\"int" "float") ∧
      TransValType.UnmarshalJSON id TransVTFloat "\"int" = (TransVTInt, none) := by
  decide

/-- C16 (amended): when the input, stripped of its leading and trailing double
quotes and lower-cased, is none of `int`, `string`, `float`, `UnmarshalJSON` fails
with the message `Invalid Translation Type: [` input `]`, which holds the input text
unchanged, and the target keeps the value it had. -/
theorem UnmarshalJSON_invalid (caseRanges : Char → Char) (t : TransValType) (val : String)
    (h : strings.ToLower caseRanges (strings.Trim val "\"") ≠ "int" ∧
      strings.ToLower caseRanges (strings.Trim val "\"") ≠ "string" ∧
      strings.ToLower caseRanges (strings.Trim val "\"") ≠ "float") :
    TransValType.UnmarshalJSON caseRanges t val =
      (t, some ("Invalid Translation Type: [" ++ val ++ "]")) := by
  unfold TransValType.UnmarshalJSON
  simp only [if_neg h.1, if_neg h.2.1, if_neg h.2.2, Prod.mk.injEq, true_and, Option.some.injEq]
  apply String.ext
  simp [Sprintf, doPrintf]

/-- C16 (amended) at the input `"bool"` with the target holding Float. -/
theorem UnmarshalJSON_invalid_witness :
    (strings.ToLower id (strings.Trim "\"bool\"" "\"") ≠ "int" ∧
        strings.ToLower id (strings.Trim "\"bool\"" "\"") ≠ "string" ∧
        strings.ToLower id (strings.Trim "\"bool\"" "\"") ≠ "float") ∧
      TransValType.UnmarshalJSON id TransVTFloat "\"bool\"" =
        (TransVTFloat, some "Invalid Translation Type: [\"bool\"]") :=
  ⟨by decide, UnmarshalJSON_invalid id TransVTFloat "\"bool\"" (by decide)⟩

/-- C17: `MarshalJSON` on `t` either finds `t` among Int (1), String (2), Float (3)
and returns no error, or `t` is none of the three and it returns empty bytes with the
error `No Such Translation Type`. -/
theorem MarshalJSON_error_iff (t : TransValType) :
    ((t = TransVTInt ∨ t = TransVTString ∨ t = TransVTFloat) ∧
        (TransValType.MarshalJSON t).2 = none) ∨
      (¬ (t = TransVTInt ∨ t = TransVTString ∨ t = TransVTFloat) ∧
        TransValType.MarshalJSON t = ("", some "No Such Translation Type")) := by
  by_cases h1 : t = TransVTInt
  · subst h1
    exact Or.inl ⟨Or.inl rfl, by decide⟩
  · by_cases h2 : t = TransVTString
    · subst h2
      exact Or.inl ⟨Or.inr (Or.inl rfl), by decide⟩
    · by_cases h3 : t = TransVTFloat
      · subst h3
        exact Or.inl ⟨Or.inr (Or.inr rfl), by decide⟩
      · refine Or.inr ⟨by simp [h1, h2, h3], ?_⟩
        have e1 : (t == TransVTInt) = false := beq_eq_false_iff_ne.mpr h1
        have e2 : (t == TransVTString) = false := beq_eq_false_iff_ne.mpr h2
        have e3 : (t == TransVTFloat) = false := beq_eq_false_iff_ne.mpr h3
        simp only [TransValType.MarshalJSON, translatorTypeToString, List.lookup, e1, e2, e3]

/-! ## Errors and unknown shapes (claims C18-C20) -/

/-- C18 (as stated, refuted): a filter value that is none of the nine variants does
not make `decompileFilterMap` fail with `error decompiling filter`. -/
theorem decompileFilterMap_other_no_error :
    ((SearchRequest.mk .other).decompileFilterMap .other ⟨[]⟩).2 ≠
      some "error decompiling filter" := by
  decide

/-- C18 (amended): a filter value that is none of the nine variants compiles to the
empty string with no error, and an enclosing `Not`, `And` or `Or` renders it as an
empty child and returns no error either. -/
theorem decompileFilterMap_other (s : SearchRequest) (lookup : Translator) :
    s.decompileFilterMap .other lookup = ("", none) ∧
      s.decompileFilterMap (.FilterNot .other) lookup = ("\x7b \"$not:\" \x7d", none) ∧
      s.decompileFilterMap (.FilterAnd [.other]) lookup = ("", none) ∧
      s.decompileFilterMap (.FilterOr [.other]) lookup = ("\"$or\": [\x7b\x7d]", none) := by
  refine ⟨?_, ?_, ?_, ?_⟩
  · simp [SearchRequest.decompileFilterMap]
  · simp only [SearchRequest.decompileFilterMap, Prod.mk.injEq, and_true]
    decide
  · simp [SearchRequest.decompileFilterMap, SearchRequest.decompileAnd]
  · simp only [SearchRequest.decompileFilterMap, SearchRequest.decompileOr, Prod.mk.injEq,
      and_true]
    decide

theorem callDepth_pos (packet : Filter) : 1 ≤ packet.callDepth := by
  cases packet <;> simp [Filter.callDepth]

mutual
theorem decompileFilterMapStack_fits (s : SearchRequest) (lookup : Translator) :
    ∀ (packet : Filter) (stack : Nat), packet.callDepth ≤ stack →
      s.decompileFilterMapStack packet lookup stack = some (s.decompileFilterMap packet lookup)
  | packet, 0, h => absurd (callDepth_pos packet) (by omega)
  | .FilterAnd f, stack + 1, h => by
    have hf : Filter.callDepthList f ≤ stack := by
      simp only [Filter.callDepth] at h
      omega
    simp only [SearchRequest.decompileFilterMapStack, SearchRequest.decompileFilterMap]
    exact decompileAndStack_fits s lookup f _ _ stack hf
  | .FilterOr f, stack + 1, h => by
    have hf : Filter.callDepthList f ≤ stack := by
      simp only [Filter.callDepth] at h
      omega
    simp only [SearchRequest.decompileFilterMapStack, SearchRequest.decompileFilterMap]
    rw [decompileOrStack_fits s lookup f _ _ stack hf]
    rcases s.decompileOr f lookup "\"$or\": [" false with ⟨ret, _ | err⟩ <;> rfl
  | .FilterNot inner, stack + 1, h => by
    have hf : inner.callDepth ≤ stack := by
      simp only [Filter.callDepth] at h
      omega
    simp only [SearchRequest.decompileFilterMapStack, SearchRequest.decompileFilterMap]
    rw [decompileFilterMapStack_fits s lookup inner stack hf]
    rcases s.decompileFilterMap inner lookup with ⟨ret, _ | err⟩ <;> rfl
  | .FilterSubstrings _ _, stack + 1, _ => by simp only [SearchRequest.decompileFilterMapStack]
  | .FilterEqualityMatch _ _, stack + 1, _ => by
    simp only [SearchRequest.decompileFilterMapStack]
  | .FilterGreaterOrEqual _ _, stack + 1, _ => by
    simp only [SearchRequest.decompileFilterMapStack]
  | .FilterLessOrEqual _ _, stack + 1, _ => by
    simp only [SearchRequest.decompileFilterMapStack]
  | .FilterPresent _, stack + 1, _ => by simp only [SearchRequest.decompileFilterMapStack]
  | .FilterApproxMatch _ _, stack + 1, _ => by
    simp only [SearchRequest.decompileFilterMapStack]
  | .other, stack + 1, _ => by simp only [SearchRequest.decompileFilterMapStack]
theorem decompileAndStack_fits (s : SearchRequest) (lookup : Translator) :
    ∀ (f : List Filter) (ret : String) (notFirst : Bool) (stack : Nat),
      Filter.callDepthList f ≤ stack →
        s.decompileAndStack f lookup ret notFirst stack =
          some (s.decompileAnd f lookup ret notFirst)
  | [], _, _, _, _ => by
    simp only [SearchRequest.decompileAndStack, SearchRequest.decompileAnd]
  | child :: rest, ret, notFirst, stack, h => by
    simp only [Filter.callDepthList] at h
    have hc : child.callDepth ≤ stack := le_trans (le_max_left _ _) h
    have hr : Filter.callDepthList rest ≤ stack := le_trans (le_max_right _ _) h
    simp only [SearchRequest.decompileAndStack, SearchRequest.decompileAnd]
    rw [decompileFilterMapStack_fits s lookup child stack hc]
    rcases s.decompileFilterMap child lookup with ⟨childStr, _ | err⟩
    · exact decompileAndStack_fits s lookup rest _ _ stack hr
    · rfl
theorem decompileOrStack_fits (s : SearchRequest) (lookup : Translator) :
    ∀ (f : List Filter) (ret : String) (notFirst : Bool) (stack : Nat),
      Filter.callDepthList f ≤ stack →
        s.decompileOrStack f lookup ret notFirst stack =
          some (s.decompileOr f lookup ret notFirst)
  | [], _, _, _, _ => by
    simp only [SearchRequest.decompileOrStack, SearchRequest.decompileOr]
  | child :: rest, ret, notFirst, stack, h => by
    simp only [Filter.callDepthList] at h
    have hc : child.callDepth ≤ stack := le_trans (le_max_left _ _) h
    have hr : Filter.callDepthList rest ≤ stack := le_trans (le_max_right _ _) h
    simp only [SearchRequest.decompileOrStack, SearchRequest.decompileOr]
    rw [decompileFilterMapStack_fits s lookup child stack hc]
    rcases s.decompileFilterMap child lookup with ⟨childStr, _ | err⟩
    · exact decompileOrStack_fits s lookup rest _ _ stack hr
    · rfl
end

theorem decompileFilterMapStack_notChain (s : SearchRequest) (lookup : Translator) :
    ∀ stack : Nat, s.decompileFilterMapStack (notChain stack) lookup stack = none
  | 0 => by simp only [SearchRequest.decompileFilterMapStack]
  | stack + 1 => by
    simp only [notChain, SearchRequest.decompileFilterMapStack,
      decompileFilterMapStack_notChain s lookup stack]

/-- C19 (as stated, refuted): the finite tree `Not(Not(Present(cn)))` does not
return on a stack that holds two nested calls, and no stack size makes every finite
tree return: the chain of `stack` nested `Not` nodes overflows a stack of that
size. -/
theorem decompileFilterMapStack_overflow :
    (SearchRequest.mk (.FilterNot (.FilterNot (.FilterPresent "cn")))).decompileFilterMapStack
        (.FilterNot (.FilterNot (.FilterPresent "cn"))) ⟨[]⟩ 2 = none ∧
      ¬ ∃ stack : Nat, ∀ packet : Filter,
        ((SearchRequest.mk .other).decompileFilterMapStack packet ⟨[]⟩ stack).isSome = true := by
  refine ⟨by decide, ?_⟩
  rintro ⟨stack, h⟩
  have h1 := h (notChain stack)
  rw [decompileFilterMapStack_notChain] at h1
  exact absurd h1 (by decide)

/-- C19 (amended): for every filter tree and every table, when the stack holds as
many nested calls as the tree is deep, `decompileFilterMap` returns, its result is
the one of the unbounded recursion, and its error is nil, so the error-return
branches of `And`, `Or` and `Not` are not taken and the error `FilterMap` drops is
nil. -/
theorem decompileFilterMapStack_returns_nil_error (s : SearchRequest) (lookup : Translator)
    (packet : Filter) (stack : Nat) (h : packet.callDepth ≤ stack) :
    s.decompileFilterMapStack packet lookup stack =
        some ((s.decompileFilterMap packet lookup).1, none) := by
  rw [decompileFilterMapStack_fits s lookup packet stack h]
  exact congrArg some (decompileFilterMap_eq s lookup packet)

/-- C19 (amended) at `And([Present(cn), Not(Present(uid))])`, of depth 3, on a stack
that holds three nested calls. -/
theorem decompileFilterMapStack_returns_nil_error_witness :
    (Filter.FilterAnd [.FilterPresent "cn", .FilterNot (.FilterPresent "uid")]).callDepth ≤ 3 ∧
      (SearchRequest.mk
          (.FilterAnd [.FilterPresent "cn", .FilterNot (.FilterPresent "uid")])).decompileFilterMapStack
          (.FilterAnd [.FilterPresent "cn", .FilterNot (.FilterPresent "uid")]) ⟨[]⟩ 3 =
        some ("\"cn\":\x7b\"$exists\": true\x7d, \x7b \"$not:\" \"uid\":\x7b\"$exists\": true\x7d\x7d",
          none) :=
  ⟨by decide,
    decompileFilterMapStack_returns_nil_error
      ⟨.FilterAnd [.FilterPresent "cn", .FilterNot (.FilterPresent "uid")]⟩ ⟨[]⟩
      (.FilterAnd [.FilterPresent "cn", .FilterNot (.FilterPresent "uid")]) 3 (by decide)⟩

/-- C20: when the record of attribute `a` has a type that is none of Int (1),
String (2), Float (3), compiling `EqualityMatch(a, v)` returns the quoted target name
and a colon and nothing else, without error, whatever `v` is. -/
theorem equalityMatch_unknown_type (s : SearchRequest) (lookup : Translator) (a n v : String)
    (ty : TransValType) (b : Bool)
    (hty : ty ≠ TransVTInt ∧ ty ≠ TransVTString ∧ ty ≠ TransVTFloat)
    (h : lookup.Table.lookup a = some ⟨n, ty, b⟩) :
    s.decompileFilterMap (.FilterEqualityMatch a v) lookup = ("\"" ++ n ++ "\":", none) := by
  have hr := Replace_of_lookup_some lookup a _ h
  simp only [SearchRequest.decompileFilterMap, hr, equalityValue, hty.1, hty.2.1, hty.2.2,
    or_self, if_false, Prod.mk.injEq, and_true]
  apply String.ext
  simp

/-- C20 at the zero type: record `(userId, 0, false)` for `uid` and value `alice`. -/
theorem equalityMatch_unknown_type_witness :
    ((0 : TransValType) ≠ TransVTInt ∧ (0 : TransValType) ≠ TransVTString ∧
        (0 : TransValType) ≠ TransVTFloat) ∧
      (Translator.mk [("uid", ⟨"userId", 0, false⟩)]).Table.lookup "uid" =
        some ⟨"userId", 0, false⟩ ∧
      (SearchRequest.mk (.FilterEqualityMatch "uid" "alice")).decompileFilterMap
          (.FilterEqualityMatch "uid" "alice") ⟨[("uid", ⟨"userId", 0, false⟩)]⟩ =
        ("\"userId\":", none) :=
  ⟨by decide, by decide, equalityMatch_unknown_type ⟨.FilterEqualityMatch "uid" "alice"⟩
    ⟨[("uid", ⟨"userId", 0, false⟩)]⟩ "uid" "userId" "alice" 0 false (by decide) (by decide)⟩

end message
